import Mathlib

/-!
Verification of the heuristic scene classifier of this repository
(`SceneAnalyzer.classify_scene`, defined once in `src/api/scene.py` and
once more, duplicated, in `src/api_server.py`).

Python floats are modelled by exact rationals (`ℚ`); every float literal of
the source (`1.5`, `0.8`, `0.5`, `0.1`, `0.001`) is translated to the exact
rational it denotes.  Python dictionaries with string keys are modelled by
association lists in insertion order, which is the iteration order Python
guarantees.  The Python expression `needle in hay` on strings is modelled by
`strIn`, and `str.lower` by `pyLower` (ASCII lowering; every keyword of the
taxonomy is ASCII).  The float division `score / total_score` raises
`ZeroDivisionError` in Python when `total_score == 0`, so the classifier is
embedded as a function into `Option`: `none` models the raised error.
-/

namespace Yolo

/-- Model of Python `str.lower` restricted to ASCII letters. -/
def lowerChar (c : Char) : Char :=
  if 'A' ≤ c ∧ c ≤ 'Z' then Char.ofNat (c.toNat + 32) else c

/-- Model of Python `str.lower` (ASCII). -/
def pyLower (s : String) : String := ⟨s.data.map lowerChar⟩

/-- Boolean test that the first list is an initial segment of the second. -/
def listPrefixOf : List Char → List Char → Bool
  | [], _ => true
  | _ :: _, [] => false
  | a :: as, b :: bs => a == b && listPrefixOf as bs

/-- Helper for `strIn`: the needle occurs at some position of the hay. -/
def strInAux (n : List Char) : List Char → Bool
  | [] => n.isEmpty
  | c :: t => listPrefixOf n (c :: t) || strInAux n t

/-- Model of the Python substring test `needle in hay`. -/
def strIn (needle hay : String) : Bool := strInAux needle.data hay.data

/-- One classification or detection item: a dict with keys
`class_name` and `confidence`. -/
structure InputItem where
  class_name : String
  confidence : ℚ
deriving DecidableEq, Repr

/-- The image-feature dict as consumed by `classify_scene`
(keys `is_anime_style`, `saturation`, `brightness`). -/
structure ImageFeatures where
  is_anime_style : Bool
  saturation : ℚ
  brightness : ℚ
deriving DecidableEq, Repr

/-- One value of the `SCENE_TYPES` table: keys `name`, `icon`,
`description`, `keywords`. -/
structure SceneInfo where
  name : String
  icon : String
  description : String
  keywords : List String
deriving DecidableEq, Repr

/-- The `SCENE_TYPES` class attribute of `SceneAnalyzer` in
`src/api/scene.py`, lines 13 to 86, in its Python insertion order. -/
def SCENE_TYPES : List (String × SceneInfo) :=
  [ ("portrait",
     { name := "人物照片", icon := "👤", description := "包含人物的照片",
       keywords := ["person", "face", "portrait", "people", "human", "man",
                    "woman", "child", "baby"] }),
    ("animal",
     { name := "动物", icon := "🐾", description := "动物照片",
       keywords := ["dog", "cat", "bird", "fish", "horse", "elephant", "bear",
                    "zebra", "giraffe", "cow", "sheep", "tiger", "lion",
                    "monkey", "rabbit", "hamster", "pet"] }),
    ("cityscape",
     { name := "城市风景", icon := "🏙️", description := "城市建筑和街景",
       keywords := ["skyscraper", "building", "tower", "bridge", "street",
                    "road", "traffic", "car", "bus", "train", "architecture",
                    "city", "urban", "downtown", "office"] }),
    ("nature",
     { name := "自然风景", icon := "🏞️", description := "自然风光和户外场景",
       keywords := ["mountain", "lake", "river", "ocean", "sea", "beach",
                    "forest", "tree", "flower", "garden", "sky", "cloud",
                    "sunset", "sunrise", "landscape", "grass", "field",
                    "valley"] }),
    ("food",
     { name := "美食", icon := "🍽️", description := "食物和饮品",
       keywords := ["food", "pizza", "burger", "cake", "fruit", "vegetable",
                    "bread", "coffee", "drink", "meal", "dinner", "breakfast",
                    "lunch", "restaurant", "dish", "cuisine"] }),
    ("vehicle",
     { name := "交通工具", icon := "🚗", description := "车辆和交通工具",
       keywords := ["car", "truck", "bus", "motorcycle", "bicycle", "airplane",
                    "boat", "ship", "train", "vehicle", "automobile", "van"] }),
    ("indoor",
     { name := "室内场景", icon := "🏠", description := "室内环境和家居",
       keywords := ["room", "furniture", "sofa", "chair", "table", "bed",
                    "lamp", "desk", "kitchen", "bathroom", "bedroom", "living",
                    "office", "interior"] }),
    ("sports",
     { name := "运动", icon := "⚽", description := "体育运动相关",
       keywords := ["ball", "football", "basketball", "tennis", "golf",
                    "baseball", "soccer", "swimming", "running", "sport",
                    "gym", "stadium", "athlete"] }),
    ("electronics",
     { name := "电子设备", icon := "📱", description := "电子产品和设备",
       keywords := ["phone", "computer", "laptop", "keyboard", "mouse",
                    "screen", "monitor", "television", "camera", "electronic",
                    "device", "gadget"] }),
    ("art",
     { name := "艺术/动漫", icon := "🎨", description := "艺术作品、插画或动漫风格",
       keywords := ["painting", "art", "drawing", "illustration", "cartoon",
                    "comic", "animation", "poster", "design", "graphic"] }),
    ("text",
     { name := "文本/文档", icon := "📄", description := "包含文字的图片",
       keywords := ["document", "paper", "book", "newspaper", "magazine",
                    "text", "letter", "sign", "poster", "menu", "envelope",
                    "notebook"] }),
    ("unknown",
     { name := "其他", icon := "❓", description := "无法确定的场景类型",
       keywords := [] }) ]

/-- Model of the Python dict update `scores[k] += v` on an association
list (every entry whose key equals `k` has `v` added; keys are unique in
all the lists this is applied to). -/
def addScore (scores : List (String × ℚ)) (k : String) (v : ℚ) :
    List (String × ℚ) :=
  scores.map fun p => if p.1 = k then (p.1, p.2 + v) else p

/-- Model of the Python dict read `scores[k]` (first entry wins),
defaulting to `0` for an absent key (never hit on the fixed key set). -/
def scoreAt : List (String × ℚ) → String → ℚ
  | [], _ => 0
  | p :: ps, k => if p.1 = k then p.2 else scoreAt ps k

/-- Model of the dict read `SCENE_TYPES[s]`; the default is never hit on
the key set used by the classifier. -/
def infoAt : List (String × SceneInfo) → String → SceneInfo
  | [], _ => { name := "", icon := "", description := "", keywords := [] }
  | e :: es, s => if e.1 = s then e.2 else infoAt es s

/-- Line 144 of `src/api/scene.py`:
`scene_scores = {scene: 0.0 for scene in cls.SCENE_TYPES.keys()}`. -/
def initScores : List (String × ℚ) := SCENE_TYPES.map fun e => (e.1, 0)

/-- One matched-keyword record appended at lines 156 to 161 of
`src/api/scene.py` (dict keys `keyword`, `class`, `scene`,
`confidence`; the Python key `class` is the field `cls` here). -/
structure MatchedKeyword where
  keyword : String
  cls : String
  scene : String
  confidence : ℚ
deriving DecidableEq, Repr

/-- The mutable state of the classification loop: the score dict plus
the `matched_keywords` list. -/
structure ScanState where
  scores : List (String × ℚ)
  matched : List MatchedKeyword
deriving DecidableEq, Repr

/-- The inner keyword loop of the classification pass, lines 153 to 161
of `src/api/scene.py`: for a scene `sc` with keyword list `ks`, test
`keyword in class_name or class_name in keyword` and on a hit add the
item confidence to the scene score and append a matched-keyword record. -/
def classKeywordScan (cname : String) (c : ℚ) (sc : String)
    (st : ScanState) (ks : List String) : ScanState :=
  ks.foldl (fun st2 k =>
    if strIn k cname || strIn cname k then
      { scores := addScore st2.scores sc c,
        matched := st2.matched ++ [{ keyword := k, cls := cname, scene := sc,
                                     confidence := c }] }
    else st2) st

/-- Lines 148 to 161 of `src/api/scene.py`: the body of
`for item in classifications`. -/
def classStep (st : ScanState) (item : InputItem) : ScanState :=
  let cname := pyLower item.class_name
  SCENE_TYPES.foldl
    (fun st1 e => classKeywordScan cname item.confidence e.1 st1 e.2.keywords)
    st

/-- The inner keyword loop of the detection pass, lines 173 to 176 of
`src/api/scene.py`: only `keyword in obj_name` is tested, and a hit adds
`confidence * 0.8`. -/
def detKeywordScan (oname : String) (c : ℚ) (sc : String)
    (scores : List (String × ℚ)) (ks : List String) : List (String × ℚ) :=
  ks.foldl (fun s3 k =>
    if strIn k oname then addScore s3 sc (c * (4/5)) else s3) scores

/-- Lines 165 to 176 of `src/api/scene.py`: the body of
`for obj in detected_objects`, with the `person` bonus of
`confidence * 1.5` on `portrait` before the generic keyword loop. -/
def detStep (scores : List (String × ℚ)) (obj : InputItem) :
    List (String × ℚ) :=
  let oname := pyLower obj.class_name
  let s1 := if oname = "person"
            then addScore scores "portrait" (obj.confidence * (3/2))
            else scores
  SCENE_TYPES.foldl
    (fun s2 e => detKeywordScan oname obj.confidence e.1 s2 e.2.keywords)
    s1

/-- Lines 179 to 187 of `src/api/scene.py`: the image-feature bonuses
(`art += 0.5` for anime style, then `food += 0.1` and `art += 0.1` for
saturation above `0.5`). -/
def featBonus (scores : List (String × ℚ)) (f : ImageFeatures) :
    List (String × ℚ) :=
  let s1 := if f.is_anime_style then addScore scores "art" (1/2) else scores
  if f.saturation > 1/2
  then addScore (addScore s1 "food" (1/10)) "art" (1/10)
  else s1

/-- Lines 144 to 187 of `src/api/scene.py`: the full scoring pass.
An absent (`None`) detection list and an absent feature dict skip the
respective blocks, exactly like the falsy checks of the source. -/
def runScan (classifications : List InputItem)
    (image_features : Option ImageFeatures)
    (detected_objects : Option (List InputItem)) : ScanState :=
  let st := classifications.foldl classStep { scores := initScores, matched := [] }
  let s2 := match detected_objects with
            | none => st.scores
            | some objs => objs.foldl detStep st.scores
  let s3 := match image_features with
            | none => s2
            | some f => featBonus s2 f
  { scores := s3, matched := st.matched }

/-- One step of the Python builtin `max(scene_scores, key=scene_scores.get)`:
the running maximum is replaced only by a strictly greater value, so the
first maximal entry in iteration order wins. -/
def maxStep (acc : Option (String × ℚ)) (p : String × ℚ) :
    Option (String × ℚ) :=
  match acc with
  | none => some p
  | some q => if p.2 > q.2 then some p else some q

/-- The Python builtin `max` with a key function over the score dict. -/
def maxBy (l : List (String × ℚ)) : Option (String × ℚ) := l.foldl maxStep none

/-- Line 190 of `src/api/scene.py`:
`best_scene = max(scene_scores, key=scene_scores.get)`.
The `"unknown"` default is dead code on the nonempty score dict. -/
def bestScene (l : List (String × ℚ)) : String :=
  match maxBy l with
  | some p => p.1
  | none => "unknown"

/-- Line 200 of `src/api/scene.py`:
`total_score = sum(scene_scores.values()) + 0.001`. -/
def totalScore (scores : List (String × ℚ)) : ℚ :=
  (scores.map Prod.snd).sum + 1/1000

/-- Stable insertion into a list sorted by strictly descending score:
the inserted pair goes before the first entry whose score is not
greater, which is how the Python stable `sorted(..., key=lambda x: -x[1])`
orders ties (original insertion order preserved). -/
def insertDesc (a : String × ℚ) : List (String × ℚ) → List (String × ℚ)
  | [] => [a]
  | h :: t => if a.2 ≥ h.2 then a :: h :: t else h :: insertDesc a t

/-- Model of the Python stable sort by descending score used at line 208
of `src/api/scene.py`. -/
def sortDesc : List (String × ℚ) → List (String × ℚ)
  | [] => []
  | h :: t => insertDesc h (sortDesc t)

/-- Floor of a rational, kernel-computable. -/
def floorQ (q : ℚ) : ℤ := q.num.fdiv (q.den : ℤ)

/-- Model of the Python builtin `round(x, 2)` on exact values:
round half to even at two decimal places. -/
def round2 (q : ℚ) : ℚ :=
  let x := q * 100
  let f := floorQ x
  let r := x - (f : ℚ)
  (if r < 1/2 then (f : ℚ)
   else if (1/2 : ℚ) < r then (f : ℚ) + 1
   else if f % 2 = 0 then (f : ℚ) else (f : ℚ) + 1) / 100

/-- One entry of the returned `scene_distribution` list. -/
structure DistEntry where
  type : String
  name : String
  icon : String
  confidence : ℚ
deriving DecidableEq, Repr

/-- The returned `primary_scene` dict. -/
structure PrimaryScene where
  type : String
  name : String
  icon : String
  description : String
  confidence : ℚ
deriving DecidableEq, Repr

/-- The returned `image_features` summary dict. -/
structure FeatSummary where
  is_anime_style : Bool
  saturation : ℚ
  brightness : ℚ
deriving DecidableEq, Repr

/-- The full return value of `classify_scene`. -/
structure SceneResult where
  primary_scene : PrimaryScene
  scene_distribution : List DistEntry
  matched_keywords : List MatchedKeyword
  image_features : FeatSummary
deriving DecidableEq, Repr

/-- Embeds `SceneAnalyzer.classify_scene`, `src/api/scene.py` lines 140
to 227.  The result is `none` exactly when the Python code would raise
`ZeroDivisionError`: the distribution comprehension divides by
`total_score` for every entry with a strictly positive score, so the
error occurs exactly when `total_score == 0` and such an entry exists. -/
def classifyScene (classifications : List InputItem)
    (image_features : Option ImageFeatures)
    (detected_objects : Option (List InputItem)) : Option SceneResult :=
  let st := runScan classifications image_features detected_objects
  let scores := st.scores
  let best := bestScene scores
  let bestScore := scoreAt scores best
  let best2 := if bestScore < 1/10 then "unknown" else best
  let info := infoAt SCENE_TYPES best2
  let total := totalScore scores
  let kept := (sortDesc scores).filter fun p => 0 < p.2
  if total = 0 ∧ kept ≠ [] then
    none
  else
    some
      { primary_scene :=
          { type := best2, name := info.name, icon := info.icon,
            description := info.description,
            confidence := min bestScore 1 },
        scene_distribution :=
          (kept.take 5).map fun p =>
            { type := p.1, name := (infoAt SCENE_TYPES p.1).name,
              icon := (infoAt SCENE_TYPES p.1).icon,
              confidence := p.2 / total },
        matched_keywords := st.matched.take 10,
        image_features :=
          match image_features with
          | none => { is_anime_style := false, saturation := 0, brightness := 0 }
          | some f => { is_anime_style := f.is_anime_style,
                        saturation := round2 f.saturation,
                        brightness := round2 f.brightness } }

/-!
The second, duplicated copy of the scene classifier: class `SceneAnalyzer`
in `src/api_server.py`, lines 239 to 458.  Its `SCENE_TYPES` table and its
`classify_scene` body are translated independently below; the two source
copies differ only in comments.  The generic models of Python builtins
(`pyLower`, `strIn`, `addScore`, `scoreAt`, `infoAt`, `maxStep`, `maxBy`,
`sortDesc`, `round2`) and the input and output record types are the shared
modelling layer and are reused.
-/

namespace Server

/-- The `SCENE_TYPES` class attribute of `SceneAnalyzer` in
`src/api_server.py`, lines 243 to 316, in its Python insertion order. -/
def SCENE_TYPES : List (String × SceneInfo) :=
  [ ("portrait",
     { name := "人物照片", icon := "👤", description := "包含人物的照片",
       keywords := ["person", "face", "portrait", "people", "human", "man",
                    "woman", "child", "baby"] }),
    ("animal",
     { name := "动物", icon := "🐾", description := "动物照片",
       keywords := ["dog", "cat", "bird", "fish", "horse", "elephant", "bear",
                    "zebra", "giraffe", "cow", "sheep", "tiger", "lion",
                    "monkey", "rabbit", "hamster", "pet"] }),
    ("cityscape",
     { name := "城市风景", icon := "🏙️", description := "城市建筑和街景",
       keywords := ["skyscraper", "building", "tower", "bridge", "street",
                    "road", "traffic", "car", "bus", "train", "architecture",
                    "city", "urban", "downtown", "office"] }),
    ("nature",
     { name := "自然风景", icon := "🏞️", description := "自然风光和户外场景",
       keywords := ["mountain", "lake", "river", "ocean", "sea", "beach",
                    "forest", "tree", "flower", "garden", "sky", "cloud",
                    "sunset", "sunrise", "landscape", "grass", "field",
                    "valley"] }),
    ("food",
     { name := "美食", icon := "🍽️", description := "食物和饮品",
       keywords := ["food", "pizza", "burger", "cake", "fruit", "vegetable",
                    "bread", "coffee", "drink", "meal", "dinner", "breakfast",
                    "lunch", "restaurant", "dish", "cuisine"] }),
    ("vehicle",
     { name := "交通工具", icon := "🚗", description := "车辆和交通工具",
       keywords := ["car", "truck", "bus", "motorcycle", "bicycle", "airplane",
                    "boat", "ship", "train", "vehicle", "automobile", "van"] }),
    ("indoor",
     { name := "室内场景", icon := "🏠", description := "室内环境和家居",
       keywords := ["room", "furniture", "sofa", "chair", "table", "bed",
                    "lamp", "desk", "kitchen", "bathroom", "bedroom", "living",
                    "office", "interior"] }),
    ("sports",
     { name := "运动", icon := "⚽", description := "体育运动相关",
       keywords := ["ball", "football", "basketball", "tennis", "golf",
                    "baseball", "soccer", "swimming", "running", "sport",
                    "gym", "stadium", "athlete"] }),
    ("electronics",
     { name := "电子设备", icon := "📱", description := "电子产品和设备",
       keywords := ["phone", "computer", "laptop", "keyboard", "mouse",
                    "screen", "monitor", "television", "camera", "electronic",
                    "device", "gadget"] }),
    ("art",
     { name := "艺术/动漫", icon := "🎨", description := "艺术作品、插画或动漫风格",
       keywords := ["painting", "art", "drawing", "illustration", "cartoon",
                    "comic", "animation", "poster", "design", "graphic"] }),
    ("text",
     { name := "文本/文档", icon := "📄", description := "包含文字的图片",
       keywords := ["document", "paper", "book", "newspaper", "magazine",
                    "text", "letter", "sign", "poster", "menu", "envelope",
                    "notebook"] }),
    ("unknown",
     { name := "其他", icon := "❓", description := "无法确定的场景类型",
       keywords := [] }) ]

/-- `src/api_server.py` lines 392 to 400: the inner keyword loop of the
classification pass of the duplicated classifier. -/
def classKeywordScan (cname : String) (c : ℚ) (sc : String)
    (st : ScanState) (ks : List String) : ScanState :=
  ks.foldl (fun st2 k =>
    if strIn k cname || strIn cname k then
      { scores := addScore st2.scores sc c,
        matched := st2.matched ++ [{ keyword := k, cls := cname, scene := sc,
                                     confidence := c }] }
    else st2) st

/-- `src/api_server.py` lines 387 to 400: the body of
`for item in classifications` of the duplicated classifier. -/
def classStep (st : ScanState) (item : InputItem) : ScanState :=
  let cname := pyLower item.class_name
  Server.SCENE_TYPES.foldl
    (fun st1 e => Server.classKeywordScan cname item.confidence e.1 st1
      e.2.keywords)
    st

/-- `src/api_server.py` lines 412 to 415: the inner keyword loop of the
detection pass of the duplicated classifier. -/
def detKeywordScan (oname : String) (c : ℚ) (sc : String)
    (scores : List (String × ℚ)) (ks : List String) : List (String × ℚ) :=
  ks.foldl (fun s3 k =>
    if strIn k oname then addScore s3 sc (c * (4/5)) else s3) scores

/-- `src/api_server.py` lines 404 to 415: the body of
`for obj in detected_objects` of the duplicated classifier. -/
def detStep (scores : List (String × ℚ)) (obj : InputItem) :
    List (String × ℚ) :=
  let oname := pyLower obj.class_name
  let s1 := if oname = "person"
            then addScore scores "portrait" (obj.confidence * (3/2))
            else scores
  Server.SCENE_TYPES.foldl
    (fun s2 e => Server.detKeywordScan oname obj.confidence e.1 s2
      e.2.keywords)
    s1

/-- `src/api_server.py` lines 418 to 426: the image-feature bonuses of
the duplicated classifier. -/
def featBonus (scores : List (String × ℚ)) (f : ImageFeatures) :
    List (String × ℚ) :=
  let s1 := if f.is_anime_style then addScore scores "art" (1/2) else scores
  if f.saturation > 1/2
  then addScore (addScore s1 "food" (1/10)) "art" (1/10)
  else s1

/-- `src/api_server.py` lines 383 to 426: the full scoring pass of the
duplicated classifier. -/
def runScan (classifications : List InputItem)
    (image_features : Option ImageFeatures)
    (detected_objects : Option (List InputItem)) : ScanState :=
  let st := classifications.foldl Server.classStep
    { scores := Server.SCENE_TYPES.map fun e => (e.1, 0), matched := [] }
  let s2 := match detected_objects with
            | none => st.scores
            | some objs => objs.foldl Server.detStep st.scores
  let s3 := match image_features with
            | none => s2
            | some f => Server.featBonus s2 f
  { scores := s3, matched := st.matched }

/-- Embeds the duplicated `SceneAnalyzer.classify_scene` of
`src/api_server.py`, lines 372 to 458, under the same modelling
conventions as the copy in `src/api/scene.py`. -/
def classifyScene (classifications : List InputItem)
    (image_features : Option ImageFeatures)
    (detected_objects : Option (List InputItem)) : Option SceneResult :=
  let st := Server.runScan classifications image_features detected_objects
  let scores := st.scores
  let best := bestScene scores
  let bestScore := scoreAt scores best
  let best2 := if bestScore < 1/10 then "unknown" else best
  let info := infoAt Server.SCENE_TYPES best2
  let total := (scores.map Prod.snd).sum + 1/1000
  let kept := (sortDesc scores).filter fun p => 0 < p.2
  if total = 0 ∧ kept ≠ [] then
    none
  else
    some
      { primary_scene :=
          { type := best2, name := info.name, icon := info.icon,
            description := info.description,
            confidence := min bestScore 1 },
        scene_distribution :=
          (kept.take 5).map fun p =>
            { type := p.1, name := (infoAt Server.SCENE_TYPES p.1).name,
              icon := (infoAt Server.SCENE_TYPES p.1).icon,
              confidence := p.2 / total },
        matched_keywords := st.matched.take 10,
        image_features :=
          match image_features with
          | none => { is_anime_style := false, saturation := 0, brightness := 0 }
          | some f => { is_anime_style := f.is_anime_style,
                        saturation := round2 f.saturation,
                        brightness := round2 f.brightness } }

end Server

/-! Helper lemmas about the score-dict operations. -/

theorem addScore_keys (l : List (String × ℚ)) (k : String) (v : ℚ) :
    (addScore l k v).map Prod.fst = l.map Prod.fst := by
  induction l with
  | nil => rfl
  | cons p ps ih =>
    simp only [addScore, List.map_cons] at ih ⊢
    by_cases h : p.1 = k <;> simp [h, ih]

theorem scoreAt_addScore (l : List (String × ℚ)) (k : String) (v : ℚ)
    (s : String) :
    scoreAt (addScore l k v) s
      = scoreAt l s + (if s = k ∧ k ∈ l.map Prod.fst then v else 0) := by
  induction l with
  | nil => simp [addScore, scoreAt]
  | cons p ps ih =>
    by_cases hps : p.1 = s
    · by_cases hpk : p.1 = k
      · have hsk : s = k := hps.symm.trans hpk
        have hmem : k ∈ (p :: ps).map Prod.fst :=
          List.mem_map.mpr ⟨p, List.mem_cons_self p ps, hpk⟩
        simp [addScore, scoreAt, hpk, hps, hsk, hmem]
      · have hsk : ¬ (s = k) := fun h => hpk (hps.trans h)
        simp [addScore, scoreAt, hpk, hps, hsk]
    · by_cases hpk : p.1 = k
      · have hks : ¬ (k = s) := fun h => hps (hpk.trans h)
        have hsk : ¬ (s = k) := fun h => hks h.symm
        simp [addScore, scoreAt, hpk, hps, hsk, hks] at ih ⊢
        exact ih
      · by_cases hsk : s = k
        · have hkp : ¬ (k = p.1) := fun h => hpk h.symm
          have hcond : (k ∈ p.1 :: ps.map Prod.fst) ↔ (k ∈ ps.map Prod.fst) := by
            simp [List.mem_cons, hkp]
          simp only [addScore, List.map_cons, scoreAt, if_neg hpk,
            if_neg hps] at ih ⊢
          simp only [hcond]
          simpa [addScore] using ih
        · simp only [addScore, List.map_cons, scoreAt, if_neg hpk,
            if_neg hps] at ih ⊢
          simp [hsk] at ih ⊢
          exact ih

theorem scoreAt_addScore_ne (l : List (String × ℚ)) (k : String) (v : ℚ)
    (s : String) (h : ¬ s = k) :
    scoreAt (addScore l k v) s = scoreAt l s := by
  rw [scoreAt_addScore]
  simp [h]

theorem mem_addScore_nonneg (l : List (String × ℚ)) (k : String) (v : ℚ)
    (hl : ∀ p ∈ l, 0 ≤ p.2) (hv : 0 ≤ v) :
    ∀ p ∈ addScore l k v, 0 ≤ p.2 := by
  intro p hp
  simp only [addScore, List.mem_map] at hp
  obtain ⟨q, hq, rfl⟩ := hp
  by_cases h : q.1 = k
  · simpa [h] using add_nonneg (hl q hq) hv
  · simpa [h] using hl q hq

theorem scoreAt_mem_of_nodup (l : List (String × ℚ)) (p : String × ℚ)
    (hnd : (l.map Prod.fst).Nodup) (hp : p ∈ l) : scoreAt l p.1 = p.2 := by
  induction l with
  | nil => cases hp
  | cons q ps ih =>
    simp only [List.map_cons, List.nodup_cons] at hnd
    rcases List.mem_cons.mp hp with h | h
    · subst h
      simp [scoreAt]
    · have hq : ¬ q.1 = p.1 := by
        intro he
        exact hnd.1 (he ▸ (List.mem_map.mpr ⟨p, h, rfl⟩))
      simp [scoreAt, hq, ih hnd.2 h]

/-- Fold invariant: a property preserved by every step with an element of
the list holds of the fold result. -/
theorem foldl_inv {α β : Type} (f : α → β → α) (P : α → Prop) :
    ∀ (l : List β) (a : α), P a → (∀ a b, b ∈ l → P a → P (f a b)) →
      P (l.foldl f a) := by
  intro l
  induction l with
  | nil => intro a h _; exact h
  | cons b bs ih =>
    intro a h hstep
    exact ih (f a b) (hstep a b (List.mem_cons_self b bs) h)
      (fun a' b' hb' => hstep a' b' (List.mem_cons_of_mem b hb'))


theorem classKeywordScan_nil (cname : String) (c : ℚ) (sc : String)
    (st : ScanState) : classKeywordScan cname c sc st [] = st := rfl

theorem classKeywordScan_cons (cname : String) (c : ℚ) (sc : String)
    (st : ScanState) (k : String) (ks : List String) :
    classKeywordScan cname c sc st (k :: ks)
      = classKeywordScan cname c sc
          (if strIn k cname || strIn cname k then
            ScanState.mk (addScore st.scores sc c)
              (st.matched ++ [MatchedKeyword.mk k cname sc c])
          else st) ks := rfl

theorem classKeywordScan_keys (cname : String) (c : ℚ) (sc : String) :
    ∀ (ks : List String) (st : ScanState),
      (classKeywordScan cname c sc st ks).scores.map Prod.fst
        = st.scores.map Prod.fst := by
  intro ks
  induction ks with
  | nil => intro st; rfl
  | cons k ks ih =>
    intro st
    rw [classKeywordScan_cons]
    by_cases h : (strIn k cname || strIn cname k) = true
    · rw [if_pos h, ih]
      exact addScore_keys st.scores sc c
    · rw [if_neg h, ih]

theorem classKeywordScan_scoreAt (cname : String) (c : ℚ) (sc s : String) :
    ∀ (ks : List String) (st : ScanState),
      scoreAt (classKeywordScan cname c sc st ks).scores s
        = scoreAt st.scores s
          + (if s = sc ∧ sc ∈ st.scores.map Prod.fst
             then c * ((ks.countP fun k => strIn k cname || strIn cname k : ℕ) : ℚ)
             else 0) := by
  intro ks
  induction ks with
  | nil =>
    intro st
    simp [classKeywordScan_nil, List.countP_nil]
  | cons k ks ih =>
    intro st
    rw [classKeywordScan_cons]
    by_cases h : (strIn k cname || strIn cname k) = true
    · rw [if_pos h, ih]
      have hk : (addScore st.scores sc c).map Prod.fst = st.scores.map Prod.fst :=
        addScore_keys st.scores sc c
      rw [hk, scoreAt_addScore]
      by_cases hc : s = sc ∧ sc ∈ st.scores.map Prod.fst
      · rw [if_pos hc, if_pos hc, if_pos ⟨hc.1, hc.2⟩]
        rw [List.countP_cons]
        simp only [h, if_pos]
        push_cast
        ring
      · rw [if_neg hc, if_neg hc, if_neg hc]
        ring
    · rw [if_neg h, ih]
      rw [List.countP_cons]
      simp [h]

theorem detKeywordScan_nil (oname : String) (c : ℚ) (sc : String)
    (scores : List (String × ℚ)) : detKeywordScan oname c sc scores [] = scores := rfl

theorem detKeywordScan_cons (oname : String) (c : ℚ) (sc : String)
    (scores : List (String × ℚ)) (k : String) (ks : List String) :
    detKeywordScan oname c sc scores (k :: ks)
      = detKeywordScan oname c sc
          (if strIn k oname then addScore scores sc (c * (4/5)) else scores) ks := rfl

theorem detKeywordScan_keys (oname : String) (c : ℚ) (sc : String) :
    ∀ (ks : List String) (scores : List (String × ℚ)),
      (detKeywordScan oname c sc scores ks).map Prod.fst
        = scores.map Prod.fst := by
  intro ks
  induction ks with
  | nil => intro scores; rfl
  | cons k ks ih =>
    intro scores
    rw [detKeywordScan_cons]
    by_cases h : strIn k oname = true
    · rw [if_pos h, ih]
      exact addScore_keys scores sc (c * (4/5))
    · rw [if_neg h, ih]

theorem detKeywordScan_scoreAt (oname : String) (c : ℚ) (sc s : String) :
    ∀ (ks : List String) (scores : List (String × ℚ)),
      scoreAt (detKeywordScan oname c sc scores ks) s
        = scoreAt scores s
          + (if s = sc ∧ sc ∈ scores.map Prod.fst
             then (c * (4/5)) * ((ks.countP fun k => strIn k oname : ℕ) : ℚ)
             else 0) := by
  intro ks
  induction ks with
  | nil =>
    intro scores
    simp [detKeywordScan_nil, List.countP_nil]
  | cons k ks ih =>
    intro scores
    rw [detKeywordScan_cons]
    by_cases h : strIn k oname = true
    · rw [if_pos h, ih]
      have hk : (addScore scores sc (c * (4/5))).map Prod.fst = scores.map Prod.fst :=
        addScore_keys scores sc (c * (4/5))
      rw [hk, scoreAt_addScore]
      by_cases hc : s = sc ∧ sc ∈ scores.map Prod.fst
      · rw [if_pos hc, if_pos hc, if_pos ⟨hc.1, hc.2⟩]
        rw [List.countP_cons]
        simp only [h, if_pos]
        push_cast
        ring
      · rw [if_neg hc, if_neg hc, if_neg hc]
        ring
    · rw [if_neg h, ih]
      rw [List.countP_cons]
      simp [h]

theorem taxClassFold_keys (cname : String) (c : ℚ) :
    ∀ (tax : List (String × SceneInfo)) (st : ScanState),
      ((tax.foldl (fun st1 e => classKeywordScan cname c e.1 st1 e.2.keywords)
          st).scores.map Prod.fst)
        = st.scores.map Prod.fst := by
  intro tax
  induction tax with
  | nil => intro st; rfl
  | cons e tax ih =>
    intro st
    rw [List.foldl_cons, ih, classKeywordScan_keys]

theorem taxClassFold_scoreAt (cname : String) (c : ℚ) (s : String) :
    ∀ (tax : List (String × SceneInfo)) (st : ScanState),
      s ∈ st.scores.map Prod.fst →
      scoreAt ((tax.foldl
          (fun st1 e => classKeywordScan cname c e.1 st1 e.2.keywords)
          st).scores) s
        = scoreAt st.scores s
          + c * (((tax.filter fun e => e.1 = s).map fun e =>
              ((e.2.keywords.countP fun k =>
                strIn k cname || strIn cname k : ℕ) : ℚ)).sum) := by
  intro tax
  induction tax with
  | nil => intro st _; simp
  | cons e tax ih =>
    intro st hs
    rw [List.foldl_cons]
    have hkeys : (classKeywordScan cname c e.1 st e.2.keywords).scores.map Prod.fst
        = st.scores.map Prod.fst := classKeywordScan_keys cname c e.1 e.2.keywords st
    have hs1 : s ∈ (classKeywordScan cname c e.1 st e.2.keywords).scores.map Prod.fst := by
      rw [hkeys]; exact hs
    rw [ih _ hs1, classKeywordScan_scoreAt]
    by_cases he : e.1 = s
    · have hcond : s = e.1 ∧ e.1 ∈ st.scores.map Prod.fst := ⟨he.symm, he ▸ hs⟩
      rw [if_pos hcond]
      simp only [List.filter_cons, he, decide_True, if_true, List.map_cons,
        List.sum_cons]
      ring
    · have hcond : ¬ (s = e.1 ∧ e.1 ∈ st.scores.map Prod.fst) :=
        fun h => he h.1.symm
      rw [if_neg hcond]
      simp [List.filter_cons, he]

theorem taxDetFold_keys (oname : String) (c : ℚ) :
    ∀ (tax : List (String × SceneInfo)) (scores : List (String × ℚ)),
      ((tax.foldl (fun s2 e => detKeywordScan oname c e.1 s2 e.2.keywords)
          scores).map Prod.fst)
        = scores.map Prod.fst := by
  intro tax
  induction tax with
  | nil => intro scores; rfl
  | cons e tax ih =>
    intro scores
    rw [List.foldl_cons, ih, detKeywordScan_keys]

theorem taxDetFold_scoreAt (oname : String) (c : ℚ) (s : String) :
    ∀ (tax : List (String × SceneInfo)) (scores : List (String × ℚ)),
      s ∈ scores.map Prod.fst →
      scoreAt (tax.foldl
          (fun s2 e => detKeywordScan oname c e.1 s2 e.2.keywords) scores) s
        = scoreAt scores s
          + (c * (4/5)) * (((tax.filter fun e => e.1 = s).map fun e =>
              ((e.2.keywords.countP fun k => strIn k oname : ℕ) : ℚ)).sum) := by
  intro tax
  induction tax with
  | nil => intro scores _; simp
  | cons e tax ih =>
    intro scores hs
    rw [List.foldl_cons]
    have hkeys : (detKeywordScan oname c e.1 scores e.2.keywords).map Prod.fst
        = scores.map Prod.fst := detKeywordScan_keys oname c e.1 e.2.keywords scores
    have hs1 : s ∈ (detKeywordScan oname c e.1 scores e.2.keywords).map Prod.fst := by
      rw [hkeys]; exact hs
    rw [ih _ hs1, detKeywordScan_scoreAt]
    by_cases he : e.1 = s
    · have hcond : s = e.1 ∧ e.1 ∈ scores.map Prod.fst := ⟨he.symm, he ▸ hs⟩
      rw [if_pos hcond]
      simp only [List.filter_cons, he, decide_True, if_true, List.map_cons,
        List.sum_cons]
      ring
    · have hcond : ¬ (s = e.1 ∧ e.1 ∈ scores.map Prod.fst) :=
        fun h => he h.1.symm
      rw [if_neg hcond]
      simp [List.filter_cons, he]

theorem filter_key_single (s : String) (info : SceneInfo) :
    ∀ (tax : List (String × SceneInfo)), (tax.map Prod.fst).Nodup →
      (s, info) ∈ tax → (tax.filter fun e => e.1 = s) = [(s, info)] := by
  intro tax
  induction tax with
  | nil => intro _ h; cases h
  | cons e tax ih =>
    intro hnd hmem
    simp only [List.map_cons, List.nodup_cons] at hnd
    rcases List.mem_cons.mp hmem with h | h
    · subst h
      have hnone : (tax.filter fun e => e.1 = s) = [] := by
        apply List.filter_eq_nil_iff.mpr
        intro q hq hq1
        exact hnd.1 (by
          simp only [decide_eq_true_eq] at hq1
          exact hq1 ▸ (List.mem_map.mpr ⟨q, hq, rfl⟩))
      simp [List.filter_cons, hnone]
    · have hne : ¬ (e.1 = s) := by
        intro he
        apply hnd.1
        rw [he]
        exact List.mem_map.mpr ⟨(s, info), h, rfl⟩
      simp only [List.filter_cons, hne, decide_False, if_false]
      exact ih hnd.2 h

theorem SCENE_TYPES_keys_nodup : (SCENE_TYPES.map Prod.fst).Nodup := by decide

theorem classStep_keys (st : ScanState) (item : InputItem) :
    (classStep st item).scores.map Prod.fst = st.scores.map Prod.fst := by
  simp only [classStep]
  exact taxClassFold_keys (pyLower item.class_name) item.confidence SCENE_TYPES st

theorem classStep_scoreAt (st : ScanState) (item : InputItem) (s : String)
    (info : SceneInfo) (hmem : (s, info) ∈ SCENE_TYPES)
    (hkeys : st.scores.map Prod.fst = SCENE_TYPES.map Prod.fst) :
    scoreAt (classStep st item).scores s
      = scoreAt st.scores s
        + item.confidence * ((info.keywords.countP fun k =>
            strIn k (pyLower item.class_name) ||
              strIn (pyLower item.class_name) k : ℕ) : ℚ) := by
  have hs : s ∈ st.scores.map Prod.fst := by
    rw [hkeys]
    exact List.mem_map.mpr ⟨(s, info), hmem, rfl⟩
  simp only [classStep]
  rw [taxClassFold_scoreAt _ _ _ _ _ hs,
    filter_key_single s info SCENE_TYPES SCENE_TYPES_keys_nodup hmem]
  simp

theorem detStep_keys (scores : List (String × ℚ)) (obj : InputItem) :
    (detStep scores obj).map Prod.fst = scores.map Prod.fst := by
  simp only [detStep]
  rw [taxDetFold_keys]
  by_cases hp : pyLower obj.class_name = "person"
  · rw [if_pos hp, addScore_keys]
  · rw [if_neg hp]

theorem detStep_scoreAt (scores : List (String × ℚ)) (obj : InputItem)
    (s : String) (info : SceneInfo) (hmem : (s, info) ∈ SCENE_TYPES)
    (hkeys : scores.map Prod.fst = SCENE_TYPES.map Prod.fst) :
    scoreAt (detStep scores obj) s
      = scoreAt scores s
        + (if s = "portrait" ∧ pyLower obj.class_name = "person"
           then obj.confidence * (3/2) else 0)
        + (obj.confidence * (4/5)) * ((info.keywords.countP fun k =>
            strIn k (pyLower obj.class_name) : ℕ) : ℚ) := by
  have hs : s ∈ scores.map Prod.fst := by
    rw [hkeys]
    exact List.mem_map.mpr ⟨(s, info), hmem, rfl⟩
  have hport : "portrait" ∈ scores.map Prod.fst := by
    rw [hkeys]; decide
  simp only [detStep]
  by_cases hp : pyLower obj.class_name = "person"
  · rw [if_pos hp]
    have hs1 : s ∈ (addScore scores "portrait" (obj.confidence * (3/2))).map Prod.fst := by
      rw [addScore_keys]; exact hs
    rw [taxDetFold_scoreAt _ _ _ _ _ hs1,
      filter_key_single s info SCENE_TYPES SCENE_TYPES_keys_nodup hmem,
      scoreAt_addScore]
    by_cases hsp : s = "portrait"
    · rw [if_pos ⟨hsp, hport⟩, if_pos ⟨hsp, hp⟩]
      simp
    · rw [if_neg (fun h => hsp h.1), if_neg (fun h => hsp h.1)]
      simp
  · rw [if_neg hp]
    rw [taxDetFold_scoreAt _ _ _ _ _ hs,
      filter_key_single s info SCENE_TYPES SCENE_TYPES_keys_nodup hmem]
    rw [if_neg (fun h => hp h.2)]
    simp

theorem featBonus_keys (scores : List (String × ℚ)) (f : ImageFeatures) :
    (featBonus scores f).map Prod.fst = scores.map Prod.fst := by
  simp only [featBonus]
  by_cases ha : f.is_anime_style
  · rw [if_pos ha]
    by_cases hs : f.saturation > 1/2
    · rw [if_pos hs, addScore_keys, addScore_keys, addScore_keys]
    · rw [if_neg hs, addScore_keys]
  · rw [if_neg ha]
    by_cases hs : f.saturation > 1/2
    · rw [if_pos hs, addScore_keys, addScore_keys]
    · rw [if_neg hs]

theorem featBonus_scoreAt_ne (scores : List (String × ℚ)) (f : ImageFeatures)
    (s : String) (hart : ¬ s = "art") (hfood : ¬ s = "food") :
    scoreAt (featBonus scores f) s = scoreAt scores s := by
  simp only [featBonus]
  by_cases ha : f.is_anime_style
  · rw [if_pos ha]
    by_cases hs : f.saturation > 1/2
    · rw [if_pos hs, scoreAt_addScore_ne _ _ _ _ hart,
        scoreAt_addScore_ne _ _ _ _ hfood, scoreAt_addScore_ne _ _ _ _ hart]
    · rw [if_neg hs, scoreAt_addScore_ne _ _ _ _ hart]
  · rw [if_neg ha]
    by_cases hs : f.saturation > 1/2
    · rw [if_pos hs, scoreAt_addScore_ne _ _ _ _ hart,
        scoreAt_addScore_ne _ _ _ _ hfood]
    · rw [if_neg hs]

theorem runScan_keys (cls : List InputItem) (feats : Option ImageFeatures)
    (dets : Option (List InputItem)) :
    (runScan cls feats dets).scores.map Prod.fst
      = SCENE_TYPES.map Prod.fst := by
  simp only [runScan]
  have h0 : initScores.map Prod.fst = SCENE_TYPES.map Prod.fst := by
    simp [initScores, List.map_map]
  have h1 : (cls.foldl classStep ⟨initScores, []⟩).scores.map Prod.fst
      = SCENE_TYPES.map Prod.fst := by
    apply foldl_inv classStep
      (fun st => st.scores.map Prod.fst = SCENE_TYPES.map Prod.fst)
    · exact h0
    · intro a b _ hP
      rw [classStep_keys, hP]
  cases dets with
  | none =>
    cases feats with
    | none => exact h1
    | some f => rw [featBonus_keys]; exact h1
  | some objs =>
    have h2 : (objs.foldl detStep
        (cls.foldl classStep ⟨initScores, []⟩).scores).map Prod.fst
        = SCENE_TYPES.map Prod.fst := by
      apply foldl_inv detStep
        (fun sc => sc.map Prod.fst = SCENE_TYPES.map Prod.fst)
      · exact h1
      · intro a b _ hP
        rw [detStep_keys, hP]
    cases feats with
    | none => exact h2
    | some f => rw [featBonus_keys]; exact h2

theorem runScan_scoreAt_unknown (cls : List InputItem)
    (feats : Option ImageFeatures) (dets : Option (List InputItem)) :
    scoreAt (runScan cls feats dets).scores "unknown" = 0 := by
  simp only [runScan]
  have hmem : ("unknown",
      { name := "其他", icon := "❓", description := "无法确定的场景类型",
        keywords := [] : SceneInfo }) ∈ SCENE_TYPES := by decide
  have h1 : (cls.foldl classStep ⟨initScores, []⟩).scores.map Prod.fst
        = SCENE_TYPES.map Prod.fst
      ∧ scoreAt (cls.foldl classStep ⟨initScores, []⟩).scores "unknown" = 0 := by
    apply foldl_inv classStep
      (fun st => st.scores.map Prod.fst = SCENE_TYPES.map Prod.fst
        ∧ scoreAt st.scores "unknown" = 0)
    · constructor
      · simp [initScores, List.map_map]
      · decide
    · intro a b _ hP
      refine ⟨by rw [classStep_keys, hP.1], ?_⟩
      rw [classStep_scoreAt a b "unknown" _ hmem hP.1, hP.2]
      simp
  cases dets with
  | none =>
    cases feats with
    | none => exact h1.2
    | some f =>
      rw [featBonus_scoreAt_ne _ _ _ (by decide) (by decide)]
      exact h1.2
  | some objs =>
    have h2 : (objs.foldl detStep
          (cls.foldl classStep ⟨initScores, []⟩).scores).map Prod.fst
          = SCENE_TYPES.map Prod.fst
        ∧ scoreAt (objs.foldl detStep
          (cls.foldl classStep ⟨initScores, []⟩).scores) "unknown" = 0 := by
      apply foldl_inv detStep
        (fun sc => sc.map Prod.fst = SCENE_TYPES.map Prod.fst
          ∧ scoreAt sc "unknown" = 0)
      · exact h1
      · intro a b _ hP
        refine ⟨by rw [detStep_keys, hP.1], ?_⟩
        rw [detStep_scoreAt a b "unknown" _ hmem hP.1, hP.2]
        simp
    cases feats with
    | none => exact h2.2
    | some f =>
      rw [featBonus_scoreAt_ne _ _ _ (by decide) (by decide)]
      exact h2.2

theorem classKeywordScan_nonneg (cname : String) (c : ℚ) (sc : String)
    (hc : 0 ≤ c) :
    ∀ (ks : List String) (st : ScanState),
      (∀ p ∈ st.scores, 0 ≤ p.2) →
      ∀ p ∈ (classKeywordScan cname c sc st ks).scores, 0 ≤ p.2 := by
  intro ks
  induction ks with
  | nil => intro st h; exact h
  | cons k ks ih =>
    intro st h
    rw [classKeywordScan_cons]
    by_cases hk : (strIn k cname || strIn cname k) = true
    · rw [if_pos hk]
      exact ih _ (mem_addScore_nonneg _ _ _ h hc)
    · rw [if_neg hk]
      exact ih _ h

theorem classStep_nonneg (st : ScanState) (item : InputItem)
    (hc : 0 ≤ item.confidence) (h : ∀ p ∈ st.scores, 0 ≤ p.2) :
    ∀ p ∈ (classStep st item).scores, 0 ≤ p.2 := by
  simp only [classStep]
  exact foldl_inv
    (fun st1 e => classKeywordScan (pyLower item.class_name) item.confidence
      e.1 st1 e.2.keywords)
    (fun a => ∀ p ∈ a.scores, 0 ≤ p.2) SCENE_TYPES st h
    (fun a e _ hP => classKeywordScan_nonneg _ _ _ hc _ _ hP)

theorem detKeywordScan_nonneg (oname : String) (c : ℚ) (sc : String)
    (hc : 0 ≤ c) :
    ∀ (ks : List String) (scores : List (String × ℚ)),
      (∀ p ∈ scores, 0 ≤ p.2) →
      ∀ p ∈ detKeywordScan oname c sc scores ks, 0 ≤ p.2 := by
  intro ks
  induction ks with
  | nil => intro scores h; exact h
  | cons k ks ih =>
    intro scores h
    rw [detKeywordScan_cons]
    by_cases hk : strIn k oname = true
    · rw [if_pos hk]
      exact ih _ (mem_addScore_nonneg _ _ _ h (by positivity))
    · rw [if_neg hk]
      exact ih _ h

theorem detStep_nonneg (scores : List (String × ℚ)) (obj : InputItem)
    (hc : 0 ≤ obj.confidence) (h : ∀ p ∈ scores, 0 ≤ p.2) :
    ∀ p ∈ detStep scores obj, 0 ≤ p.2 := by
  simp only [detStep]
  have hs1 : ∀ p ∈ (if pyLower obj.class_name = "person"
      then addScore scores "portrait" (obj.confidence * (3/2)) else scores),
      0 ≤ p.2 := by
    by_cases hp : pyLower obj.class_name = "person"
    · rw [if_pos hp]
      exact mem_addScore_nonneg _ _ _ h (by positivity)
    · rw [if_neg hp]
      exact h
  exact foldl_inv
    (fun s2 e => detKeywordScan (pyLower obj.class_name) obj.confidence
      e.1 s2 e.2.keywords)
    (fun a => ∀ p ∈ a, 0 ≤ p.2) SCENE_TYPES _ hs1
    (fun a e _ hP => detKeywordScan_nonneg _ _ _ hc _ _ hP)

theorem featBonus_nonneg (scores : List (String × ℚ)) (f : ImageFeatures)
    (h : ∀ p ∈ scores, 0 ≤ p.2) :
    ∀ p ∈ featBonus scores f, 0 ≤ p.2 := by
  simp only [featBonus]
  by_cases ha : f.is_anime_style
  · rw [if_pos ha]
    by_cases hs : f.saturation > 1/2
    · rw [if_pos hs]
      exact mem_addScore_nonneg _ _ _
        (mem_addScore_nonneg _ _ _ (mem_addScore_nonneg _ _ _ h (by norm_num))
          (by norm_num)) (by norm_num)
    · rw [if_neg hs]
      exact mem_addScore_nonneg _ _ _ h (by norm_num)
  · rw [if_neg ha]
    by_cases hs : f.saturation > 1/2
    · rw [if_pos hs]
      exact mem_addScore_nonneg _ _ _
        (mem_addScore_nonneg _ _ _ h (by norm_num)) (by norm_num)
    · rw [if_neg hs]
      exact h

theorem runScan_nonneg (cls : List InputItem) (feats : Option ImageFeatures)
    (dets : Option (List InputItem))
    (h1 : ∀ it ∈ cls, 0 ≤ it.confidence)
    (h2 : ∀ l, dets = some l → ∀ it ∈ l, 0 ≤ it.confidence) :
    ∀ p ∈ (runScan cls feats dets).scores, 0 ≤ p.2 := by
  simp only [runScan]
  have hinit : ∀ p ∈ initScores, 0 ≤ p.2 := by
    intro p hp
    simp only [initScores, List.mem_map] at hp
    obtain ⟨e, _, rfl⟩ := hp
    exact le_refl 0
  have hcls : ∀ p ∈ (cls.foldl classStep ⟨initScores, []⟩).scores, 0 ≤ p.2 := by
    apply foldl_inv classStep (fun a => ∀ p ∈ a.scores, 0 ≤ p.2)
    · exact hinit
    · intro a b hb hP
      exact classStep_nonneg a b (h1 b hb) hP
  cases dets with
  | none =>
    cases feats with
    | none => exact hcls
    | some f => exact featBonus_nonneg _ _ hcls
  | some objs =>
    have hdet : ∀ p ∈ objs.foldl detStep
        (cls.foldl classStep ⟨initScores, []⟩).scores, 0 ≤ p.2 := by
      apply foldl_inv detStep (fun a => ∀ p ∈ a, 0 ≤ p.2)
      · exact hcls
      · intro a b hb hP
        exact detStep_nonneg a b (h2 objs rfl b hb) hP
    cases feats with
    | none => exact hdet
    | some f => exact featBonus_nonneg _ _ hdet

theorem insertDesc_perm (a : String × ℚ) :
    ∀ (l : List (String × ℚ)), (insertDesc a l).Perm (a :: l) := by
  intro l
  induction l with
  | nil => exact List.Perm.refl _
  | cons h t ih =>
    simp only [insertDesc]
    by_cases hc : a.2 ≥ h.2
    · rw [if_pos hc]
    · rw [if_neg hc]
      exact (ih.cons h).trans (List.Perm.swap a h t)

theorem sortDesc_perm : ∀ (l : List (String × ℚ)), (sortDesc l).Perm l := by
  intro l
  induction l with
  | nil => exact List.Perm.refl _
  | cons h t ih =>
    simp only [sortDesc]
    exact (insertDesc_perm h (sortDesc t)).trans (ih.cons h)

theorem maxStep_aux :
    ∀ (l : List (String × ℚ)) (q : String × ℚ),
      (l.foldl maxStep (some q) = some q ∧ ∀ x ∈ l, x.2 ≤ q.2) ∨
      (∃ r l₁ l₂, l.foldl maxStep (some q) = some r ∧ l = l₁ ++ r :: l₂ ∧
        q.2 < r.2 ∧ (∀ x ∈ l₁, x.2 < r.2) ∧ (∀ x ∈ l₂, x.2 ≤ r.2)) := by
  intro l
  induction l with
  | nil => intro q; exact Or.inl ⟨rfl, by intro x hx; cases hx⟩
  | cons p t ih =>
    intro q
    rw [List.foldl_cons]
    by_cases hpq : p.2 > q.2
    · have hstep : maxStep (some q) p = some p := by
        simp [maxStep, hpq]
      rw [hstep]
      rcases ih p with ⟨heq, hb⟩ | ⟨r, l₁, l₂, hf, hl, hqr, h1, h2⟩
      · refine Or.inr ⟨p, [], t, heq, rfl, hpq, ?_, hb⟩
        intro x hx; cases hx
      · refine Or.inr ⟨r, p :: l₁, l₂, hf, by rw [hl, List.cons_append],
          lt_trans hpq hqr, ?_, h2⟩
        intro x hx
        rcases List.mem_cons.mp hx with h | h
        · exact h ▸ hqr
        · exact h1 x h
    · have hstep : maxStep (some q) p = some q := by
        simp [maxStep, hpq]
      rw [hstep]
      have hpq' : p.2 ≤ q.2 := le_of_not_lt hpq
      rcases ih q with ⟨heq, hb⟩ | ⟨r, l₁, l₂, hf, hl, hqr, h1, h2⟩
      · refine Or.inl ⟨heq, ?_⟩
        intro x hx
        rcases List.mem_cons.mp hx with h | h
        · exact h ▸ hpq'
        · exact hb x h
      · refine Or.inr ⟨r, p :: l₁, l₂, hf, by rw [hl, List.cons_append],
          hqr, ?_, h2⟩
        intro x hx
        rcases List.mem_cons.mp hx with h | h
        · exact h ▸ (lt_of_le_of_lt hpq' hqr)
        · exact h1 x h

theorem maxBy_first_max (l : List (String × ℚ)) (hne : l ≠ []) :
    ∃ p l₁ l₂, maxBy l = some p ∧ l = l₁ ++ p :: l₂ ∧
      (∀ x ∈ l₁, x.2 < p.2) ∧ (∀ x ∈ l₂, x.2 ≤ p.2) := by
  cases l with
  | nil => exact absurd rfl hne
  | cons q t =>
    have h0 : maxBy (q :: t) = t.foldl maxStep (some q) := rfl
    rcases maxStep_aux t q with ⟨heq, hb⟩ | ⟨r, l₁, l₂, hf, hl, hqr, h1, h2⟩
    · exact ⟨q, [], t, by rw [h0, heq], rfl,
        fun x hx => absurd hx (List.not_mem_nil x), hb⟩
    · refine ⟨r, q :: l₁, l₂, by rw [h0, hf], by rw [hl, List.cons_append],
        ?_, h2⟩
      intro x hx
      rcases List.mem_cons.mp hx with h | h
      · exact h ▸ hqr
      · exact h1 x h

theorem sum_map_div (t : ℚ) :
    ∀ (l : List (String × ℚ)),
      (l.map fun p => p.2 / t).sum = (l.map Prod.snd).sum / t := by
  intro l
  induction l with
  | nil => simp
  | cons p ps ih =>
    simp only [List.map_cons, List.sum_cons, ih, add_div]

/-- The distribution list divides a sublist of the scores by the total;
with nonnegative scores its confidence mass is at most `1`. -/
theorem dist_sum_le_one (scores : List (String × ℚ))
    (hnn : ∀ p ∈ scores, 0 ≤ p.2) :
    ((((sortDesc scores).filter fun p => 0 < p.2).take 5).map
        fun p => p.2 / totalScore scores).sum ≤ 1 := by
  have hS : 0 ≤ (scores.map Prod.snd).sum := by
    apply List.sum_nonneg
    intro a ha
    obtain ⟨p, hp, rfl⟩ := List.mem_map.mp ha
    exact hnn p hp
  have htot : 0 < totalScore scores := by
    simp only [totalScore]
    linarith
  rw [sum_map_div]
  rw [div_le_one htot]
  have hsub1 : List.Sublist ((((sortDesc scores).filter fun p => 0 < p.2).take 5))
      (sortDesc scores) :=
    (List.take_sublist _ _).trans (List.filter_sublist _)
  have hperm : ((sortDesc scores).map Prod.snd).Perm (scores.map Prod.snd) :=
    (sortDesc_perm scores).map Prod.snd
  have hnnsort : ∀ a ∈ (sortDesc scores).map Prod.snd, 0 ≤ a := by
    intro a ha
    obtain ⟨p, hp, rfl⟩ := List.mem_map.mp ha
    exact hnn p ((sortDesc_perm scores).mem_iff.mp hp)
  have hle : (((((sortDesc scores).filter fun p => 0 < p.2).take 5)).map
      Prod.snd).sum ≤ ((sortDesc scores).map Prod.snd).sum :=
    List.Sublist.sum_le_sum (hsub1.map Prod.snd) hnnsort
  calc (((((sortDesc scores).filter fun p => 0 < p.2).take 5)).map Prod.snd).sum
      ≤ ((sortDesc scores).map Prod.snd).sum := hle
    _ = (scores.map Prod.snd).sum := hperm.sum_eq
    _ ≤ totalScore scores := by simp only [totalScore]; linarith

/-- C2 (amended): for every input on which the classifier returns, the
reported `primary_scene.confidence` equals `min` of the score of the
pre-override argmax scene and `1`, not of the final scene type; when
that maximal score is below `0.1` the reported type is `"unknown"`
while the confidence stays the clamped maximal score. -/
theorem c2_theorem (cls : List InputItem) (feats : Option ImageFeatures)
    (dets : Option (List InputItem)) :
    ∀ r, classifyScene cls feats dets = some r →
      r.primary_scene.confidence
        = min (scoreAt (runScan cls feats dets).scores
            (bestScene (runScan cls feats dets).scores)) 1
      ∧ (scoreAt (runScan cls feats dets).scores
            (bestScene (runScan cls feats dets).scores) < 1/10 →
          r.primary_scene.type = "unknown") := by
  intro r hr
  simp only [classifyScene] at hr
  by_cases hg : totalScore (runScan cls feats dets).scores = 0 ∧
      ((sortDesc (runScan cls feats dets).scores).filter fun p => 0 < p.2) ≠ []
  · rw [if_pos hg] at hr
    cases hr
  · rw [if_neg hg] at hr
    obtain rfl := (Option.some.inj hr).symm
    refine ⟨rfl, ?_⟩
    intro hlt
    simp only [if_pos hlt]

/-- C8 (amended): for every input whose classification and detection
confidences are all nonnegative, the normalization total is at least
the epsilon `0.001`, hence strictly positive, and the classifier
returns a result (no division error is reached). -/
theorem c8_theorem (cls : List InputItem) (feats : Option ImageFeatures)
    (dets : Option (List InputItem))
    (h1 : ∀ it ∈ cls, 0 ≤ it.confidence)
    (h2 : ∀ l, dets = some l → ∀ it ∈ l, 0 ≤ it.confidence) :
    (1/1000 : ℚ) ≤ totalScore (runScan cls feats dets).scores
      ∧ ∃ r, classifyScene cls feats dets = some r := by
  have hnn : ∀ p ∈ (runScan cls feats dets).scores, 0 ≤ p.2 :=
    runScan_nonneg cls feats dets h1 h2
  have hS : 0 ≤ ((runScan cls feats dets).scores.map Prod.snd).sum := by
    apply List.sum_nonneg
    intro a ha
    obtain ⟨p, hp, rfl⟩ := List.mem_map.mp ha
    exact hnn p hp
  have htot : (1/1000 : ℚ) ≤ totalScore (runScan cls feats dets).scores := by
    simp only [totalScore]
    linarith
  refine ⟨htot, ?_⟩
  have hne : ¬ (totalScore (runScan cls feats dets).scores = 0 ∧
      ((sortDesc (runScan cls feats dets).scores).filter fun p => 0 < p.2) ≠ []) := by
    intro h
    rw [h.1] at htot
    norm_num at htot
  simp only [classifyScene]
  rw [if_neg hne]
  exact ⟨_, rfl⟩

/-- C4: for every input whose classification and detection confidences
lie in the interval from `0` to `1`, the confidences of the returned
`scene_distribution` sum to at most `1`. -/
theorem c4_theorem (cls : List InputItem) (feats : Option ImageFeatures)
    (dets : Option (List InputItem))
    (h1 : ∀ it ∈ cls, 0 ≤ it.confidence ∧ it.confidence ≤ 1)
    (h2 : ∀ l, dets = some l → ∀ it ∈ l, 0 ≤ it.confidence ∧ it.confidence ≤ 1) :
    ∀ r, classifyScene cls feats dets = some r →
      (r.scene_distribution.map fun e => e.confidence).sum ≤ 1 := by
  intro r hr
  have hnn : ∀ p ∈ (runScan cls feats dets).scores, 0 ≤ p.2 :=
    runScan_nonneg cls feats dets (fun it h => (h1 it h).1)
      (fun l hl it h => (h2 l hl it h).1)
  simp only [classifyScene] at hr
  by_cases hg : totalScore (runScan cls feats dets).scores = 0 ∧
      ((sortDesc (runScan cls feats dets).scores).filter fun p => 0 < p.2) ≠ []
  · rw [if_pos hg] at hr
    cases hr
  · rw [if_neg hg] at hr
    obtain rfl := (Option.some.inj hr).symm
    have := dist_sum_le_one (runScan cls feats dets).scores hnn
    simpa [List.map_map, Function.comp] using this

/-- C9: for every input the accumulated score of the `"unknown"` scene
is `0`, so `"unknown"` never appears in the returned distribution, and
every distribution entry has a strictly positive underlying score. -/
theorem c9_theorem (cls : List InputItem) (feats : Option ImageFeatures)
    (dets : Option (List InputItem)) :
    scoreAt (runScan cls feats dets).scores "unknown" = 0
      ∧ ∀ r, classifyScene cls feats dets = some r →
          ∀ e ∈ r.scene_distribution, ¬ (e.type = "unknown")
            ∧ 0 < scoreAt (runScan cls feats dets).scores e.type := by
  refine ⟨runScan_scoreAt_unknown cls feats dets, ?_⟩
  intro r hr e he
  simp only [classifyScene] at hr
  by_cases hg : totalScore (runScan cls feats dets).scores = 0 ∧
      ((sortDesc (runScan cls feats dets).scores).filter fun p => 0 < p.2) ≠ []
  · rw [if_pos hg] at hr
    cases hr
  · rw [if_neg hg] at hr
    obtain rfl := (Option.some.inj hr).symm
    simp only [List.mem_map] at he
    obtain ⟨p, hp, rfl⟩ := he
    have hpkept : p ∈ (sortDesc (runScan cls feats dets).scores).filter
        fun p => 0 < p.2 := List.mem_of_mem_take hp
    have hppos : 0 < p.2 := by
      have := List.of_mem_filter hpkept
      simpa using this
    have hpmem : p ∈ (runScan cls feats dets).scores :=
      (sortDesc_perm _).mem_iff.mp (List.mem_of_mem_filter hpkept)
    have hnd : ((runScan cls feats dets).scores.map Prod.fst).Nodup := by
      rw [runScan_keys]
      exact SCENE_TYPES_keys_nodup
    have hscore : scoreAt (runScan cls feats dets).scores p.1 = p.2 :=
      scoreAt_mem_of_nodup _ _ hnd hpmem
    constructor
    · intro hu
      have hu' : p.1 = "unknown" := hu
      have h0 := runScan_scoreAt_unknown cls feats dets
      rw [hu'] at hscore
      rw [hscore] at h0
      exact absurd h0 (ne_of_gt hppos)
    · show 0 < scoreAt (runScan cls feats dets).scores p.1
      rw [hscore]
      exact hppos

/-- C6: the primary scene before the low-score override is the argmax of
the score dict with ties broken by the fixed taxonomy iteration order.
For every input, the score dict carries the twelve scene types in the
taxonomy insertion order, and the scene picked by `bestScene` (the
embedded `max(scene_scores, key=scene_scores.get)` of line 190) splits
the dict into a prefix of strictly smaller scores and a suffix of scores
not exceeding it: the first entry attaining the maximum wins. -/
theorem c6_theorem (cls : List InputItem) (feats : Option ImageFeatures)
    (dets : Option (List InputItem)) :
    SCENE_TYPES.map Prod.fst
        = ["portrait", "animal", "cityscape", "nature", "food", "vehicle",
           "indoor", "sports", "electronics", "art", "text", "unknown"]
      ∧ (runScan cls feats dets).scores.map Prod.fst = SCENE_TYPES.map Prod.fst
      ∧ ∃ p l₁ l₂, (runScan cls feats dets).scores = l₁ ++ p :: l₂
          ∧ bestScene (runScan cls feats dets).scores = p.1
          ∧ (∀ x ∈ l₁, x.2 < p.2) ∧ (∀ x ∈ l₂, x.2 ≤ p.2) := by
  refine ⟨rfl, runScan_keys cls feats dets, ?_⟩
  have hne : (runScan cls feats dets).scores ≠ [] := by
    intro h
    have hk := runScan_keys cls feats dets
    rw [h] at hk
    exact absurd hk.symm (by decide)
  obtain ⟨p, l₁, l₂, hmax, hdecomp, h1, h2⟩ :=
    maxBy_first_max (runScan cls feats dets).scores hne
  refine ⟨p, l₁, l₂, hdecomp, ?_, h1, h2⟩
  simp only [bestScene, hmax]

/-- C5: keyword matching is asymmetric between the two input kinds.
A classification item adds its confidence to a scene score once per
keyword matching in either containment direction, while a detection
item adds the person bonus plus `confidence * 0.8` once per keyword
matching only in the keyword-inside-name direction; the pair
keyword `"human"`, name `"hum"` matches as a classification but not as
a detection. -/
theorem c5_theorem (st : ScanState) (scores : List (String × ℚ))
    (item : InputItem) (s : String) (info : SceneInfo)
    (hmem : (s, info) ∈ SCENE_TYPES)
    (hk1 : st.scores.map Prod.fst = SCENE_TYPES.map Prod.fst)
    (hk2 : scores.map Prod.fst = SCENE_TYPES.map Prod.fst) :
    scoreAt (classStep st item).scores s
        = scoreAt st.scores s
          + item.confidence * ((info.keywords.countP fun k =>
              strIn k (pyLower item.class_name)
                || strIn (pyLower item.class_name) k : ℕ) : ℚ)
      ∧ scoreAt (detStep scores item) s
        = scoreAt scores s
          + (if s = "portrait" ∧ pyLower item.class_name = "person"
             then item.confidence * (3/2) else 0)
          + (item.confidence * (4/5)) * ((info.keywords.countP fun k =>
              strIn k (pyLower item.class_name) : ℕ) : ℚ)
      ∧ (strIn "human" "hum" || strIn "hum" "human") = true
      ∧ strIn "human" "hum" = false :=
  ⟨classStep_scoreAt st item s info hmem hk1,
    detStep_scoreAt scores item s info hmem hk2, by decide, by decide⟩

/-- C7: the classifier is deterministic and stateless: it is embedded
as a pure function of its three arguments (the source reads only its
parameters and the immutable class constant `SCENE_TYPES`), so two
invocations on identical arguments give identical results. -/
theorem c7_theorem (cls : List InputItem) (feats : Option ImageFeatures)
    (dets : Option (List InputItem)) :
    classifyScene cls feats dets = classifyScene cls feats dets := rfl

/-- C10: the two copies of the scene classifier, the one of
`src/api/scene.py` and the duplicated one of `src/api_server.py`,
return identical results on every input. -/
theorem c10_theorem (cls : List InputItem) (feats : Option ImageFeatures)
    (dets : Option (List InputItem)) :
    Server.classifyScene cls feats dets = classifyScene cls feats dets := rfl

/-- C3: for the empty classification list, an empty or absent detection
list, and no image features, the classifier returns the primary scene
type `"unknown"` with confidence `0.0`. -/
theorem c3_theorem :
    ((classifyScene [] none none).map fun r =>
        (r.primary_scene.type, r.primary_scene.confidence))
      = some ("unknown", 0)
    ∧ ((classifyScene [] none (some [])).map fun r =>
        (r.primary_scene.type, r.primary_scene.confidence))
      = some ("unknown", 0) :=
  ⟨by with_unfolding_all rfl, by with_unfolding_all rfl⟩

/-- C1 counterexample: on the single detection `person` with confidence
`0.8` and no other input, the accumulated portrait score is `1.84`,
not the `0.8 * 1.5 = 1.2` stated by the claim: the person bonus is not
the only portrait contribution. -/
theorem c1_counterexample :
    scoreAt (runScan [] none
        (some [{ class_name := "person", confidence := 4/5 }])).scores "portrait"
      = 46/25
    ∧ ¬ ((46/25 : ℚ) = (4/5) * (3/2)) :=
  ⟨by with_unfolding_all rfl, by norm_num⟩

/-- C1 (amended): on the single detection `person` with confidence
`0.8` and no other input, the portrait score accumulates
`0.8 * 1.5 + 0.8 * 0.8 = 1.84`: the person bonus plus the generic
keyword match of `"person"`; the classifier returns primary type
`"portrait"` with confidence clamped to `1.0`. -/
theorem c1_theorem :
    scoreAt (runScan [] none
        (some [{ class_name := "person", confidence := 4/5 }])).scores "portrait"
      = (4/5) * (3/2) + (4/5) * (4/5)
    ∧ ((classifyScene [] none
        (some [{ class_name := "person", confidence := 4/5 }])).map fun r =>
          (r.primary_scene.type, r.primary_scene.confidence))
      = some ("portrait", 1) :=
  ⟨by with_unfolding_all rfl, by with_unfolding_all rfl⟩

/-- C2 counterexample: for the single classification `person` with
confidence `0.05`, the maximal score `0.05` is below `0.1`, the
returned type is `"unknown"`, and the returned confidence is `0.05`,
not the `0.0` the claim derives from the overridden type. -/
theorem c2_counterexample :
    ((classifyScene [{ class_name := "person", confidence := 1/20 }] none
        none).map fun r => (r.primary_scene.type, r.primary_scene.confidence))
      = some ("unknown", 1/20)
    ∧ ¬ ((1/20 : ℚ) = 0) :=
  ⟨by with_unfolding_all rfl, by norm_num⟩

/-- C8 counterexample: for the classifications `person` with confidence
`-0.002` and `dog` with confidence `0.001` (well formed per the claim:
string names, numeric confidences), the total is exactly `0` while the
animal score is positive, so the Python code divides by zero and the
embedded classifier returns `none`.  Both confidences and every
intermediate sum are exactly representable as binary floats, so the
Python computation hits `0.0` exactly as the rational model does. -/
theorem c8_counterexample :
    classifyScene [{ class_name := "person", confidence := -1/500 },
      { class_name := "dog", confidence := 1/1000 }] none none = none := by
  with_unfolding_all rfl

/-- Witness for C2 at the empty input. -/
theorem c2_witness :
    (SceneResult.mk
        (PrimaryScene.mk "unknown" "其他" "❓" "无法确定的场景类型" 0) [] []
        (FeatSummary.mk false 0 0)).primary_scene.confidence
      = min (scoreAt (runScan [] none none).scores
          (bestScene (runScan [] none none).scores)) 1
    ∧ (scoreAt (runScan [] none none).scores
          (bestScene (runScan [] none none).scores) < 1/10 →
        (SceneResult.mk
          (PrimaryScene.mk "unknown" "其他" "❓" "无法确定的场景类型" 0) [] []
          (FeatSummary.mk false 0 0)).primary_scene.type = "unknown") :=
  c2_theorem [] none none _ (by with_unfolding_all rfl)

/-- Witness for C4 at the classification `dog` with confidence `1`. -/
theorem c4_witness :
    ((SceneResult.mk (PrimaryScene.mk "animal" "动物" "🐾" "动物照片" 1)
        [DistEntry.mk "animal" "动物" "🐾" (1000/1001)]
        [MatchedKeyword.mk "dog" "dog" "animal" 1]
        (FeatSummary.mk false 0 0)).scene_distribution.map
      fun e => e.confidence).sum ≤ 1 :=
  c4_theorem [InputItem.mk "dog" 1] none none
    (fun it h => by
      rw [List.mem_singleton] at h
      subst h
      exact ⟨zero_le_one, le_refl 1⟩)
    (fun _l hl => nomatch hl)
    _ (by with_unfolding_all rfl)

/-- Witness for C5 at the name `"hum"` and the portrait taxonomy entry. -/
theorem c5_witness :
    scoreAt (classStep (ScanState.mk initScores []) (InputItem.mk "hum" 1)).scores
        "portrait"
      = scoreAt (ScanState.mk initScores []).scores "portrait"
        + (1 : ℚ) * (((SceneInfo.mk "人物照片" "👤" "包含人物的照片"
            ["person", "face", "portrait", "people", "human", "man", "woman",
             "child", "baby"]).keywords.countP fun k =>
            strIn k (pyLower "hum") || strIn (pyLower "hum") k : ℕ) : ℚ)
    ∧ scoreAt (detStep initScores (InputItem.mk "hum" 1)) "portrait"
      = scoreAt initScores "portrait"
        + (if "portrait" = "portrait" ∧ pyLower "hum" = "person"
           then (1 : ℚ) * (3/2) else 0)
        + ((1 : ℚ) * (4/5)) * (((SceneInfo.mk "人物照片" "👤" "包含人物的照片"
            ["person", "face", "portrait", "people", "human", "man", "woman",
             "child", "baby"]).keywords.countP fun k =>
            strIn k (pyLower "hum") : ℕ) : ℚ)
    ∧ (strIn "human" "hum" || strIn "hum" "human") = true
    ∧ strIn "human" "hum" = false :=
  c5_theorem (ScanState.mk initScores []) initScores (InputItem.mk "hum" 1)
    "portrait"
    (SceneInfo.mk "人物照片" "👤" "包含人物的照片"
      ["person", "face", "portrait", "people", "human", "man", "woman",
       "child", "baby"])
    (by decide) rfl rfl

/-- Witness for C8 at the empty input. -/
theorem c8_witness :
    (1/1000 : ℚ) ≤ totalScore (runScan [] none none).scores
      ∧ ∃ r, classifyScene [] none none = some r :=
  c8_theorem [] none none (fun it h => absurd h (List.not_mem_nil it))
    (fun _l hl => nomatch hl)

/-- Witness for C9 at the classification `dog` with confidence `1`. -/
theorem c9_witness :
    scoreAt (runScan [InputItem.mk "dog" 1] none none).scores "unknown" = 0
    ∧ ∀ e ∈ (SceneResult.mk (PrimaryScene.mk "animal" "动物" "🐾" "动物照片" 1)
        [DistEntry.mk "animal" "动物" "🐾" (1000/1001)]
        [MatchedKeyword.mk "dog" "dog" "animal" 1]
        (FeatSummary.mk false 0 0)).scene_distribution,
        ¬ (e.type = "unknown")
          ∧ 0 < scoreAt (runScan [InputItem.mk "dog" 1] none none).scores e.type :=
  ⟨(c9_theorem [InputItem.mk "dog" 1] none none).1,
    (c9_theorem [InputItem.mk "dog" 1] none none).2 _ (by with_unfolding_all rfl)⟩


end Yolo
